import Mathlib

/-!
Verification of the obsidian-monolith-plugin repository (src/main.ts).

The TypeScript source is shallowly embedded: each definition below mirrors a
function or expression of src/main.ts (line numbers in the doc comments).
External services (the WHATWG URL parser, the filesystem stat call, the DOM
parser used to read an href out of an anchor string, and the user's home
directory) are passed in as explicit function or value parameters, so the
embedded code stays a pure function of its inputs.

JS primitives used by the source (`String.prototype.split`, `Array.join`,
`String.prototype.includes`, `String.prototype.slice(-2)`, `Array.pop`)
are embedded as structurally recursive Lean functions so that every
definition evaluates inside the kernel.
-/

/-- JS `s.split(sep)` for a one-character separator, on the character list
of `s`: `''.split('/') = ['']`, `'/'.split('/') = ['', '']`. -/
def jsSplitChars (sep : Char) : List Char → List String
  | [] => [""]
  | c :: cs =>
    let rest := jsSplitChars sep cs
    if c = sep then "" :: rest
    else
      match rest with
      | r :: rs => String.mk (c :: r.data) :: rs
      | [] => [String.mk [c]]

/-- JS `s.split(sep)` for a one-character separator. -/
def jsSplit (sep : Char) (s : String) : List String :=
  jsSplitChars sep s.data

/-- JS `parts.join(sep)`. -/
def jsJoin (sep : String) : List String → String
  | [] => ""
  | [x] => x
  | x :: y :: xs => x ++ sep ++ jsJoin sep (y :: xs)

/-- Whether the pattern (second argument) occurs at the start of the
text (first argument). -/
def startsWithChars : List Char → List Char → Bool
  | _, [] => true
  | [], _ :: _ => false
  | c :: cs, p :: ps => c = p && startsWithChars cs ps

/-- Whether the pattern (second argument) occurs anywhere in the text
(first argument). -/
def containsChars : List Char → List Char → Bool
  | [], p => p.isEmpty
  | c :: cs, p => startsWithChars (c :: cs) p || containsChars cs p

/-- JS `s.includes(pat)` (Obsidian's `String.prototype.contains`). -/
def jsIncludes (s pat : String) : Bool :=
  containsChars s.data pat.data

/-- JS `s.slice(-2)`: the last two characters (the whole string when it is
shorter than two characters). -/
def jsSliceLast2 (s : String) : String :=
  String.mk (s.data.drop (s.data.length - 2))

/-- JS `Array.prototype.pop` on a list of strings: the popped element
(`none` when the array is empty, JS `undefined`) together with the array
after the pop. -/
def jsPop (xs : List String) : Option String × List String :=
  (xs.getLast?, xs.dropLast)

/-- JS string coercion of a possibly-undefined string, as template literals
perform it: `undefined` prints as "undefined". -/
def jsString : Option String → String
  | some s => s
  | none => "undefined"

/-- A parsed WHATWG URL, abstracted to the two members the plugin reads:
`url.pathname` and `url.toString()` (the serialized href).  `new URL(s)` is
modelled as an external function `String → Option Url` (`none` when the
constructor throws). -/
structure Url where
  pathname : String
  href : String
deriving Repr, DecidableEq

/-- src/main.ts lines 184-186: derive the output file name from the URL's
pathname.  `const path = url.pathname.split('/')`, then
``const outputFile = `${path.pop() || path.pop()}.html` ``.
JS `a || b` takes `b` exactly when `a` is falsy, i.e. the empty string or
`undefined`; the second pop runs on the array already shortened by the
first pop. -/
def outputFileOf (pathname : String) : String :=
  let parts := jsSplit '/' pathname
  let first := jsPop parts
  let chosen : String :=
    match first.1 with
    | some s => if s = "" then jsString (jsPop first.2).1 else s
    | none => jsString (jsPop first.2).1
  chosen ++ ".html"

/-- C3: archiveLink derives the output filename as the last '/'-separated
segment of the pathname, falling back to the second-to-last segment when
the last segment is empty (trailing slash), with '.html' appended. -/
theorem archiveLink_outputFile_segments (pathname : String) :
    (∀ last, (jsSplit '/' pathname).getLast? = some last → last ≠ "" →
      outputFileOf pathname = last ++ ".html") ∧
    (∀ s2, (jsSplit '/' pathname).getLast? = some "" →
      ((jsSplit '/' pathname).dropLast).getLast? = some s2 →
      outputFileOf pathname = s2 ++ ".html") := by
  constructor
  · intro last hlast hne
    unfold outputFileOf jsPop
    simp only [hlast]
    simp [hne]
  · intro s2 hlast hs2
    unfold outputFileOf jsPop
    simp only [hlast, hs2]
    simp [jsString]

/-- Closed instance of `archiveLink_outputFile_segments`: evaluates the
embedded filename derivation on '/wiki/Monolith' and on '/wiki/Monolith/'. -/
theorem archiveLink_outputFile_segments_witness :
    outputFileOf "/wiki/Monolith" = "Monolith" ++ ".html" ∧
    outputFileOf "/wiki/Monolith/" = "Monolith" ++ ".html" :=
  ⟨(archiveLink_outputFile_segments "/wiki/Monolith").1 "Monolith" (by decide)
      (by decide),
   (archiveLink_outputFile_segments "/wiki/Monolith/").2 "Monolith" (by decide)
      (by decide)⟩

/-- C10: the derived output filename always ends in '.html'; for the
pathname '/', both pops of `['', '']` yield the empty string and the
derived filename is the bare string '.html'. -/
theorem archiveLink_outputFile_html_suffix :
    (∀ pathname, ∃ stem, outputFileOf pathname = stem ++ ".html") ∧
    (jsPop (jsSplit '/' "/")).1 = some "" ∧
    (jsPop (jsPop (jsSplit '/' "/")).2).1 = some "" ∧
    outputFileOf "/" = ".html" := by
  refine ⟨fun pathname => ⟨_, rfl⟩, by decide, by decide, by decide⟩

/-- src/main.ts lines 20-23: the settings record, exactly two fields. -/
structure MonolithPluginSettings where
  cliOpts : List String
  outputPath : String
deriving Repr, DecidableEq

/-- src/main.ts lines 25-28: `DEFAULT_SETTINGS`.  `homedir()` (the `os`
module) is an external value, passed as the parameter `hd`. -/
def DEFAULT_SETTINGS (hd : String) : MonolithPluginSettings :=
  { cliOpts := ["--no-js", "--isolate"], outputPath := hd }

/-- The JSON object returned by `loadData()`: each field may be absent. -/
structure StoredData where
  cliOpts : Option (List String)
  outputPath : Option String
deriving Repr, DecidableEq

/-- src/main.ts lines 216-218: `loadSettings` merges the stored data over
the defaults with `Object.assign({}, DEFAULT_SETTINGS, await this.loadData())`:
a field present in the stored object wins, an absent field keeps its
default, and a missing data file (`loadData()` returning null) keeps all
defaults. -/
def loadSettings (hd : String) (stored : Option StoredData) : MonolithPluginSettings :=
  match stored with
  | none => DEFAULT_SETTINGS hd
  | some d =>
    { cliOpts := d.cliOpts.getD (DEFAULT_SETTINGS hd).cliOpts,
      outputPath := d.outputPath.getD (DEFAULT_SETTINGS hd).outputPath }

/-- The plugin together with its persisted data file: `settings` is the
in-memory record, `saved` what `saveData` last wrote. -/
structure PluginState where
  settings : MonolithPluginSettings
  saved : Option MonolithPluginSettings
deriving Repr, DecidableEq

/-- src/main.ts lines 220-222: `saveSettings` persists the current record. -/
def saveSettings (st : PluginState) : PluginState :=
  { st with saved := some st.settings }

/-- src/main.ts lines 256-262: the Flags text field's onChange handler:
`this.plugin.settings.cliOpts = value.split(' '); await this.plugin.saveSettings()`. -/
def flagsOnChange (st : PluginState) (value : String) : PluginState :=
  saveSettings { st with settings := { st.settings with cliOpts := jsSplit ' ' value } }

/-- The part of the Obsidian editor the plugin touches: its text (as a
string, positions being character offsets) and the current selection
(anchor and head offsets). -/
structure Editor where
  text : String
  anchor : Nat
  head : Nat
deriving Repr, DecidableEq

/-- The first `n` characters of `s`. -/
def strTake (s : String) (n : Nat) : String :=
  String.mk (s.data.take n)

/-- `s` without its first `n` characters. -/
def strDrop (s : String) (n : Nat) : String :=
  String.mk (s.data.drop n)

/-- `editor.setSelection(anchor, head)`. -/
def setSelection (e : Editor) (anchor head : Nat) : Editor :=
  { e with anchor := anchor, head := head }

/-- `editor.replaceSelection(s)`: replaces the selected range with `s`
and leaves the cursor after the inserted text. -/
def replaceSelection (e : Editor) (s : String) : Editor :=
  let lo := min e.anchor e.head
  let hi := max e.anchor e.head
  { text := strTake e.text lo ++ s ++ strDrop e.text hi,
    anchor := lo + s.data.length,
    head := lo + s.data.length }

/-- src/main.ts lines 187-188: the argument list handed to `spawn`.
`const baseArgs = ['-o' + outputFile, url.toString()]`, prefixed by the
configured flags unless `cliOpts[0] !== ''` fails; on an empty flags
array `cliOpts[0]` is `undefined`, which also differs from `''`. -/
def buildArgs (cliOpts : List String) (outputFile urlHref : String) : List String :=
  let baseArgs := ["-o" ++ outputFile, urlHref]
  if cliOpts.head? ≠ some "" then cliOpts ++ baseArgs else baseArgs

/-- An invocation of `spawn`: command, argument list and the working
directory from the spawn options. -/
structure SpawnCall where
  cmd : String
  args : List String
  cwd : String
deriving Repr, DecidableEq

/-- src/main.ts lines 183-191: the `spawn('monolith', args, spawnOpts)`
call made by `archiveLink`, with `spawnOpts = { cwd: this.settings.outputPath }`. -/
def spawnCallOf (s : MonolithPluginSettings) (url : Url) : SpawnCall :=
  { cmd := "monolith",
    args := buildArgs s.cliOpts (outputFileOf url.pathname) url.href,
    cwd := s.outputPath }

/-- src/main.ts line 201: the anchor string spliced next to the URL on
success. -/
def anchorStringOf (s : MonolithPluginSettings) (outputFile : String) : String :=
  "<a class=\"archivedLink\" href=\"file://" ++ s.outputPath ++ "/" ++ outputFile
    ++ "\">(archived)</a>"

/-- Observable side effects of `archiveLink` other than the editor edit. -/
inductive Effect where
  | spawnProc (cmd : String) (args : List String) (cwd : String) : Effect
  | log (msg : String) : Effect
  | notice (msg : String) : Effect
deriving Repr, DecidableEq

/-- Whether an effect is a process spawn. -/
def isSpawnEffect : Effect → Bool
  | .spawnProc _ _ _ => true
  | _ => false

/-- src/main.ts lines 199-209: the `close` handler of the spawned process.
`code` is the exit code the `close` event reports (`none` for a
signal-terminated process).  On `code === 0` it sets the selection to the
remembered range, replaces it with the URL followed by the anchor string,
and shows 'Link archived!'; otherwise it only shows the failure notice. -/
def closeHandler (s : MonolithPluginSettings) (url : Url) (range : Nat × Nat)
    (code : Option Int) (e : Editor) : Editor × List Effect :=
  if code = some 0 then
    let e1 := setSelection e range.2 range.1
    let e2 := replaceSelection e1
      (url.href ++ " " ++ anchorStringOf s (outputFileOf url.pathname))
    (e2, [Effect.notice "Link archived!"])
  else
    (e, [Effect.notice "Archiving failed, check console."])

/-- One complete run of the spawned process, as observed by the three
attached handlers: the data chunks delivered on stdout and stderr and the
exit code of the `close` event. -/
structure ProcessRun where
  outChunks : List String
  errChunks : List String
  exitCode : Option Int
deriving Repr, DecidableEq

/-- src/main.ts lines 183-210: `archiveLink`.  Derives the output file
name, builds the argument list, spawns `monolith` (one spawn effect),
logs every stdout and stderr chunk, and runs the close handler on the
exit code. -/
def archiveLink (s : MonolithPluginSettings) (url : Url) (range : Nat × Nat)
    (e : Editor) (run : ProcessRun) : Editor × List Effect :=
  let call := spawnCallOf s url
  let logs := run.outChunks.map Effect.log ++ run.errChunks.map Effect.log
  let close := closeHandler s url range run.exitCode e
  (close.1, Effect.spawnProc call.cmd call.args call.cwd :: (logs ++ close.2))

/-- C2: the argument list is the configured flag list followed by
'-o<outputFile>' and url.toString() when the first configured flag is a
non-empty string, and only ['-o<outputFile>', url.toString()] when the
first configured flag is the empty string; the working directory of the
spawn is the configured output path. -/
theorem archiveLink_spawn_args (s : MonolithPluginSettings) (url : Url) :
    (∀ c, s.cliOpts.head? = some c → c ≠ "" →
      (spawnCallOf s url).args =
        s.cliOpts ++ ["-o" ++ outputFileOf url.pathname, url.href]) ∧
    (s.cliOpts.head? = some "" →
      (spawnCallOf s url).args = ["-o" ++ outputFileOf url.pathname, url.href]) ∧
    (spawnCallOf s url).cwd = s.outputPath ∧
    (spawnCallOf s url).cmd = "monolith" := by
  refine ⟨?_, ?_, rfl, rfl⟩
  · intro c hc hne
    simp only [spawnCallOf, buildArgs]
    rw [if_pos]
    simp [hc, hne]
  · intro hc
    simp only [spawnCallOf, buildArgs]
    rw [if_neg]
    simp [hc]

/-- Closed instance of `archiveLink_spawn_args` at concrete settings and
URL, for both shapes of the flag list. -/
theorem archiveLink_spawn_args_witness :
    (spawnCallOf ⟨["--no-js", "--isolate"], "/home/u"⟩ ⟨"/p", "https://e.com/p"⟩).args =
      ["--no-js", "--isolate"] ++ ["-o" ++ outputFileOf "/p", "https://e.com/p"] ∧
    (spawnCallOf ⟨[""], "/home/u"⟩ ⟨"/p", "https://e.com/p"⟩).args =
      ["-o" ++ outputFileOf "/p", "https://e.com/p"] :=
  ⟨(archiveLink_spawn_args ⟨["--no-js", "--isolate"], "/home/u"⟩
      ⟨"/p", "https://e.com/p"⟩).1 "--no-js" rfl (by decide),
   (archiveLink_spawn_args ⟨[""], "/home/u"⟩
      ⟨"/p", "https://e.com/p"⟩).2.1 rfl⟩

/-- C1: on a close with exit code 0 the handler shows 'Link archived!'
and writes the formatted link text into the editor; on a nonzero exit
code it only shows 'Archiving failed, check console.' and leaves the
editor (text and selection) unchanged. -/
theorem archiveLink_close_exit_code (s : MonolithPluginSettings) (url : Url)
    (range : Nat × Nat) (code : Option Int) (e : Editor) :
    (code = some 0 → closeHandler s url range code e =
      (replaceSelection (setSelection e range.2 range.1)
        (url.href ++ " " ++ anchorStringOf s (outputFileOf url.pathname)),
       [Effect.notice "Link archived!"])) ∧
    (∀ c : Int, code = some c → c ≠ 0 →
      closeHandler s url range code e =
        (e, [Effect.notice "Archiving failed, check console."])) := by
  constructor
  · intro h
    subst h
    rfl
  · intro c hc hne
    subst hc
    unfold closeHandler
    rw [if_neg]
    simp [hne]

/-- Closed instance of `archiveLink_close_exit_code`: both branches at a
concrete state. -/
theorem archiveLink_close_exit_code_witness :
    closeHandler ⟨["--no-js"], "/home/u"⟩ ⟨"/p", "https://e.com/p"⟩ (0, 15)
        (some 0) ⟨"https://e.com/p", 0, 15⟩ =
      (replaceSelection (setSelection ⟨"https://e.com/p", 0, 15⟩ 15 0)
        ("https://e.com/p" ++ " " ++
          anchorStringOf ⟨["--no-js"], "/home/u"⟩ (outputFileOf "/p")),
       [Effect.notice "Link archived!"]) ∧
    closeHandler ⟨["--no-js"], "/home/u"⟩ ⟨"/p", "https://e.com/p"⟩ (0, 15)
        (some 1) ⟨"https://e.com/p", 0, 15⟩ =
      (⟨"https://e.com/p", 0, 15⟩,
       [Effect.notice "Archiving failed, check console."]) :=
  ⟨(archiveLink_close_exit_code ⟨["--no-js"], "/home/u"⟩ ⟨"/p", "https://e.com/p"⟩
      (0, 15) (some 0) ⟨"https://e.com/p", 0, 15⟩).1 rfl,
   (archiveLink_close_exit_code ⟨["--no-js"], "/home/u"⟩ ⟨"/p", "https://e.com/p"⟩
      (0, 15) (some 1) ⟨"https://e.com/p", 0, 15⟩).2 1 rfl (by decide)⟩

/-- C5: on exit code 0 the text spliced into the caller-supplied range is
the URL string, a single space, and the anchor string, whose href target
is 'file://<outputPath>/<outputFile>'; the rest of the document is kept
around the replaced range. -/
theorem archiveLink_success_splice (s : MonolithPluginSettings) (url : Url)
    (range : Nat × Nat) (e : Editor) :
    (closeHandler s url range (some 0) e).1.text =
      strTake e.text (min range.2 range.1) ++
        (url.href ++ " " ++ anchorStringOf s (outputFileOf url.pathname)) ++
        strDrop e.text (max range.2 range.1) ∧
    anchorStringOf s (outputFileOf url.pathname) =
      "<a class=\"archivedLink\" href=\"" ++
        ("file://" ++ s.outputPath ++ "/" ++ outputFileOf url.pathname) ++
        "\">(archived)</a>" := by
  constructor
  · rfl
  · simp only [anchorStringOf]
    apply congrArg String.mk
    simp

/-- C6: the settings record has exactly the two fields cliOpts and
outputPath; loadSettings takes each field from the stored data when
present and from the defaults (['--no-js', '--isolate'], home directory)
otherwise; changing the Flags setting persists the now-current record. -/
theorem settings_load_defaults_save (hd : String) (stored : StoredData) :
    (loadSettings hd (some stored)).cliOpts = stored.cliOpts.getD ["--no-js", "--isolate"] ∧
    (loadSettings hd (some stored)).outputPath = stored.outputPath.getD hd ∧
    loadSettings hd none = DEFAULT_SETTINGS hd ∧
    (DEFAULT_SETTINGS hd).cliOpts = ["--no-js", "--isolate"] ∧
    (DEFAULT_SETTINGS hd).outputPath = hd ∧
    (∀ st v, (flagsOnChange st v).saved = some (flagsOnChange st v).settings) ∧
    (∀ a b : MonolithPluginSettings,
      a.cliOpts = b.cliOpts → a.outputPath = b.outputPath → a = b) := by
  refine ⟨rfl, rfl, rfl, rfl, rfl, fun st v => rfl, ?_⟩
  intro a b h1 h2
  cases a
  cases b
  simp_all

/-- Closed instance of `settings_load_defaults_save` at a concrete home
directory and stored record. -/
theorem settings_load_defaults_save_witness :
    (loadSettings "/home/u" (some ⟨some ["-x"], none⟩)).cliOpts = ["-x"] ∧
    ({ cliOpts := ["-x"], outputPath := "/tmp" } : MonolithPluginSettings) =
      { cliOpts := ["-x"], outputPath := "/tmp" } :=
  ⟨(settings_load_defaults_save "/home/u" ⟨some ["-x"], none⟩).1,
   (settings_load_defaults_save "/home/u" ⟨some ["-x"], none⟩).2.2.2.2.2.2
      ⟨["-x"], "/tmp"⟩ ⟨["-x"], "/tmp"⟩ rfl rfl⟩

/-- Logged data chunks are never spawn effects. -/
theorem filter_spawn_of_map_log (l : List String) :
    (l.map Effect.log).filter isSpawnEffect = [] := by
  induction l with
  | nil => rfl
  | cons a l ih => simp [isSpawnEffect, ih]

/-- The close handler emits only notices, never a spawn. -/
theorem closeHandler_snd_no_spawn (s : MonolithPluginSettings) (url : Url)
    (range : Nat × Nat) (code : Option Int) (e : Editor) :
    ((closeHandler s url range code e).2).filter isSpawnEffect = [] := by
  unfold closeHandler
  split <;> simp [isSpawnEffect]

/-- C7: each archiveLink invocation spawns exactly one external process,
and every chunk delivered on the process's stdout or stderr is consumed
(logged) before the close event is handled. -/
theorem archiveLink_one_spawn (s : MonolithPluginSettings) (url : Url)
    (range : Nat × Nat) (e : Editor) (run : ProcessRun) :
    (((archiveLink s url range e run).2).filter isSpawnEffect).length = 1 ∧
    (∀ c, c ∈ run.outChunks → Effect.log c ∈ (archiveLink s url range e run).2) ∧
    (∀ c, c ∈ run.errChunks → Effect.log c ∈ (archiveLink s url range e run).2) := by
  refine ⟨?_, ?_, ?_⟩
  · simp [archiveLink, List.filter_append, filter_spawn_of_map_log,
      closeHandler_snd_no_spawn, isSpawnEffect]
  · intro c hc
    exact List.mem_cons_of_mem _ (List.mem_append_left _
      (List.mem_append_left _ (List.mem_map_of_mem _ hc)))
  · intro c hc
    exact List.mem_cons_of_mem _ (List.mem_append_left _
      (List.mem_append_right _ (List.mem_map_of_mem _ hc)))

/-- Closed instance of `archiveLink_one_spawn` at a concrete run with one
stdout and one stderr chunk. -/
theorem archiveLink_one_spawn_witness :
    (((archiveLink ⟨["--no-js"], "/home/u"⟩ ⟨"/p", "https://e.com/p"⟩ (0, 15)
        ⟨"https://e.com/p", 0, 15⟩ ⟨["out1"], ["err1"], some 0⟩).2).filter
          isSpawnEffect).length = 1 ∧
    Effect.log "out1" ∈ (archiveLink ⟨["--no-js"], "/home/u"⟩ ⟨"/p", "https://e.com/p"⟩
      (0, 15) ⟨"https://e.com/p", 0, 15⟩ ⟨["out1"], ["err1"], some 0⟩).2 ∧
    Effect.log "err1" ∈ (archiveLink ⟨["--no-js"], "/home/u"⟩ ⟨"/p", "https://e.com/p"⟩
      (0, 15) ⟨"https://e.com/p", 0, 15⟩ ⟨["out1"], ["err1"], some 0⟩).2 :=
  ⟨(archiveLink_one_spawn _ _ _ _ _).1,
   (archiveLink_one_spawn _ _ _ _ _).2.1 "out1" (by decide),
   (archiveLink_one_spawn _ _ _ _ _).2.2 "err1" (by decide)⟩

/-- The part of the markdown view the check callback reads: the current
selection text and the cursor range ('from' and 'to' offsets). -/
structure ViewState where
  selection : String
  rangeFrom : Nat
  rangeTo : Nat
deriving Repr, DecidableEq

/-- src/main.ts lines 153-179: the `checkCallback` of the 'Archive link'
command.  `view?.editor.getSelection() || ""` is the selection when a
view exists and "" otherwise (an empty selection is falsy but `|| ""`
yields the same empty string); the `range` object literal is always
truthy; the guard is `if (view && url && range)`.  The first component
models the returned value (`true` versus JS `undefined`); the second is
the `this.archiveLink(view, url, range)` invocation the callback makes
when `checking` is false, with its URL and range arguments. -/
def checkCallback (parseURL : String → Option Url) (view : Option ViewState)
    (checking : Bool) : Bool × Option (Url × Nat × Nat) :=
  let potentialUrl :=
    match view with
    | some v => v.selection
    | none => ""
  let url := parseURL potentialUrl
  match view, url with
  | some v, some u =>
    (true, if checking then none else some (u, v.rangeFrom, v.rangeTo))
  | _, _ => (false, none)

/-- C4: the check callback reports the command runnable exactly when an
active markdown view exists whose current selection parses as a URL, and
it invokes archiveLink exactly when that holds and `checking` is false. -/
theorem archive_command_check (parseURL : String → Option Url)
    (view : Option ViewState) (checking : Bool) :
    ((checkCallback parseURL view checking).1 = true ↔
      ∃ v, view = some v ∧ (parseURL v.selection).isSome) ∧
    ((checkCallback parseURL view checking).2.isSome ↔
      checking = false ∧ ∃ v, view = some v ∧ (parseURL v.selection).isSome) := by
  cases view with
  | none =>
    cases hp : parseURL "" <;> simp [checkCallback, hp]
  | some v =>
    cases hp : parseURL v.selection with
    | none => simp [checkCallback, hp]
    | some u => cases checking <;> simp [checkCallback, hp]

/-- src/main.ts lines 56-89: the per-line body of `buildDecorations`.
`lineChunks = line.text.split(' ')`; the first chunk for which
`new URL(s)` does not throw is found with `findIndex`; `afterUrl` joins
the chunks after it; the marker test is
`afterUrl.contains('class="archivedLink"') && afterUrl.slice(-2) === 'a>'`;
on success a replace decoration is added from
`pos + lineChunks[i].length + 1` to that plus `afterUrl.length`, carrying
a `LinkWidget` whose href the DOM parser reads out of the anchor markup
(modelled by the external function `extractHref`). -/
def lineDecoration (parseURL : String → Option Url) (extractHref : String → String)
    (pos : Nat) (lineText : String) : Option (Nat × Nat × String) :=
  let lineChunks := jsSplit ' ' lineText
  match lineChunks.findIdx? (fun s => (parseURL s).isSome) with
  | none => none
  | some i =>
    let afterUrl := jsJoin " " (lineChunks.drop (i + 1))
    if jsIncludes afterUrl "class=\"archivedLink\"" && jsSliceLast2 afterUrl == "a>" then
      let startPos := pos + (lineChunks.getD i "").length + 1
      some (startPos, startPos + afterUrl.length, extractHref afterUrl)
    else
      none

/-- CodeMirror's `doc.lineAt(pos)` on a document given as its list of
lines: the start offset and text of the line containing `pos` (line `k`
spans the offsets from its start to its start plus its length, newlines
separating consecutive lines). -/
def lineAt : List String → Nat → Nat → Nat × String
  | [], off, _ => (off, "")
  | [l], off, _ => (off, l)
  | l :: ls, off, pos =>
    if pos ≤ off + l.length then (off, l) else lineAt ls (off + l.length + 1) pos

/-- src/main.ts lines 54-92: the scan loop of `buildDecorations` over one
visible range: `for (let pos = from; pos <= to;) { const line =
view.state.doc.lineAt(pos); ...; pos = line.to + 1 }`.  `fuel` bounds the
iteration count; each step moves `pos` past the current line's end, so
`to + 1` steps always suffice. -/
def scanRange (parseURL : String → Option Url) (extractHref : String → String)
    (lines : List String) : Nat → Nat → Nat → List (Nat × Nat × String)
  | 0, _, _ => []
  | fuel + 1, pos, toPos =>
    if pos ≤ toPos then
      let lf := lineAt lines 0 pos
      let rest := scanRange parseURL extractHref lines fuel (lf.1 + lf.2.length + 1) toPos
      match lineDecoration parseURL extractHref pos lf.2 with
      | some d => d :: rest
      | none => rest
    else []

/-- src/main.ts lines 51-95: `buildDecorations`, collecting the replace
decorations (start offset, end offset, widget href) added to the
`RangeSetBuilder` over all visible ranges. -/
def buildDecorations (parseURL : String → Option Url) (extractHref : String → String)
    (lines : List String) (ranges : List (Nat × Nat)) : List (Nat × Nat × String) :=
  (ranges.map (fun r => scanRange parseURL extractHref lines (r.2 + 1) r.1 r.2)).flatten

/-- Following the claim's words (not the source): the span of 'exactly
that remainder', i.e. of the text that follows the URL chunk on the
line: it starts after the chunks up to and including the URL chunk plus
the separating space, and ends at the end of the line. -/
def markerSpanSpec (lineFrom : Nat) (lineText : String) (i : Nat) : Nat × Nat :=
  let chunks := jsSplit ' ' lineText
  (lineFrom + (jsJoin " " (chunks.take (i + 1))).length + 1,
   lineFrom + lineText.length)

/-- A concrete visible line whose URL chunk is preceded by another chunk:
one character, a space, a 13-character URL, a space, and a 60-character
archived-link marker. -/
def exampleLine : String :=
  "x https://a.com <a class=\"archivedLink\" href=\"file:///a.html\">(archived)</a>"

/-- A URL parser recognising exactly the URL chunk of `exampleLine`. -/
def parseUrlX : String → Option Url :=
  fun s => if s == "https://a.com" then some ⟨"/", "https://a.com/"⟩ else none

/-- The DOM href extraction on `exampleLine`'s marker. -/
def extractHrefX : String → String :=
  fun _ => "file:///a.html"

/-- C8 evaluated on `exampleLine`: the marker test passes (URL chunk at
index 1, remainder carries the marker), a decoration with the widget
href is added, but it spans offsets 14 to 74, while the remainder after
the URL chunk occupies offsets 16 to 76: the code's start offset
`pos + lineChunks[i].length + 1` skips only the URL chunk itself and not
the chunks before it, so the decoration does not span the marker. -/
theorem buildDecorations_offset_mismatch :
    buildDecorations parseUrlX extractHrefX [exampleLine] [(0, exampleLine.length)] =
      [(14, 74, "file:///a.html")] ∧
    markerSpanSpec 0 exampleLine 1 = (16, 76) ∧
    (14, 74) ≠ ((16, 76) : Nat × Nat) := by
  refine ⟨by decide, by decide, by decide⟩

/-- The result of `fs.stat` on a path, abstracted to the one member the
plugin reads: `stats.isDirectory()`. -/
structure FsStats where
  isDirectory : Bool
deriving Repr, DecidableEq

/-- The state the output-folder onChange handler touches: the in-memory
`settings.outputPath`, the persisted value, and the number of '.outErr'
error headings in the settings pane. -/
structure PaneState where
  outputPath : String
  saved : Option String
  errCount : Nat
deriving Repr, DecidableEq

/-- src/main.ts lines 270-289: the Output folder text field's onChange
handler.  `stat(value)` is the external filesystem call, `none` modelling
a thrown error: then an 'Invalid path will not be saved.' heading is
created unless one is already present.  Only when `stats &&
stats.isDirectory()` does the handler store the value, save the settings
and remove the error heading; a path that exists but is not a directory
changes nothing. -/
def outputPathOnChange (statFn : String → Option FsStats) (st : PaneState)
    (value : String) : PaneState :=
  match statFn value with
  | none => { st with errCount := if st.errCount = 0 then 1 else st.errCount }
  | some stats =>
    if stats.isDirectory then
      { outputPath := value, saved := some value, errCount := 0 }
    else st

/-- C9: the output path is updated and persisted exactly when the entered
value stats as an existing directory; any other value leaves the stored
path unchanged while at most one 'Invalid path will not be saved.'
heading is present. -/
theorem outputPath_saved_only_directory (statFn : String → Option FsStats)
    (st : PaneState) (value : String) :
    ((∃ fs, statFn value = some fs ∧ fs.isDirectory = true) →
      (outputPathOnChange statFn st value).outputPath = value ∧
      (outputPathOnChange statFn st value).saved = some value ∧
      (outputPathOnChange statFn st value).errCount = 0) ∧
    ((∀ fs, statFn value = some fs → fs.isDirectory = false) →
      (outputPathOnChange statFn st value).outputPath = st.outputPath ∧
      (outputPathOnChange statFn st value).saved = st.saved) ∧
    (st.errCount ≤ 1 → (outputPathOnChange statFn st value).errCount ≤ 1) := by
  cases h : statFn value with
  | none =>
    refine ⟨?_, ?_, ?_⟩
    · rintro ⟨fs, hfs, -⟩
      exact absurd hfs (by simp)
    · intro _
      simp [outputPathOnChange, h]
    · intro hle
      simp only [outputPathOnChange, h]
      split <;> omega
  | some fs =>
    cases hd : fs.isDirectory with
    | true =>
      refine ⟨?_, ?_, ?_⟩
      · intro _
        simp [outputPathOnChange, h, hd]
      · intro hall
        have := hall fs rfl
        rw [hd] at this
        exact absurd this (by simp)
      · intro _
        simp [outputPathOnChange, h, hd]
    | false =>
      refine ⟨?_, ?_, ?_⟩
      · rintro ⟨fs2, hfs2, hdir2⟩
        injection hfs2 with he
        rw [← he] at hdir2
        rw [hd] at hdir2
        exact absurd hdir2 (by simp)
      · intro _
        simp [outputPathOnChange, h, hd]
      · intro hle
        simpa [outputPathOnChange, h, hd] using hle

/-- Closed instance of `outputPath_saved_only_directory`: an existing
directory is accepted and persisted; a missing path is rejected and the
error-heading count stays at most one. -/
theorem outputPath_saved_only_directory_witness :
    ((outputPathOnChange (fun p => if p = "/ok" then some ⟨true⟩ else none)
        ⟨"/old", none, 0⟩ "/ok").outputPath = "/ok" ∧
      (outputPathOnChange (fun p => if p = "/ok" then some ⟨true⟩ else none)
        ⟨"/old", none, 0⟩ "/ok").saved = some "/ok" ∧
      (outputPathOnChange (fun p => if p = "/ok" then some ⟨true⟩ else none)
        ⟨"/old", none, 0⟩ "/ok").errCount = 0) ∧
    ((outputPathOnChange (fun p => if p = "/ok" then some ⟨true⟩ else none)
        ⟨"/old", none, 0⟩ "/missing").outputPath = "/old" ∧
      (outputPathOnChange (fun p => if p = "/ok" then some ⟨true⟩ else none)
        ⟨"/old", none, 0⟩ "/missing").saved = none) ∧
    (outputPathOnChange (fun p => if p = "/ok" then some ⟨true⟩ else none)
      ⟨"/old", none, 0⟩ "/missing").errCount ≤ 1 :=
  ⟨(outputPath_saved_only_directory _ ⟨"/old", none, 0⟩ "/ok").1
      ⟨⟨true⟩, by decide, rfl⟩,
   (outputPath_saved_only_directory _ ⟨"/old", none, 0⟩ "/missing").2.1
      (fun fs hfs => by simp at hfs),
   (outputPath_saved_only_directory _ ⟨"/old", none, 0⟩ "/missing").2.2
      (by decide)⟩
